import Mathlib

/-!
Verification of the Google Drive MCP server (`pkg/driveapi`, `cmd/server`).

The remote Drive service is modelled as an oracle (`Env`): a record of
response functions, one per remote entry point the Go code uses
(`Files.List`, `Files.Create`, `Files.Export(...).Download`,
`Files.Get(...).Download`).  Each embedded operation returns its Go result
(`Except` mirrors Go's `(value, error)` pair) together with the trace of
remote calls it issued, so that claims about "zero creation calls" or
"no remote call at all" are statements about the trace.
-/

namespace GDrive

/-- Equality on `Except` results is decidable when it is on both sides, so
the witnesses below can be checked by evaluation. -/
instance {ε α : Type} [DecidableEq ε] [DecidableEq α] : DecidableEq (Except ε α) := fun a b =>
  match a, b with
  | .error e1, .error e2 => decidable_of_iff (e1 = e2) (by simp)
  | .error _, .ok _ => isFalse (by simp)
  | .ok _, .error _ => isFalse (by simp)
  | .ok v1, .ok v2 => decidable_of_iff (v1 = v2) (by simp)

/-- A Drive file record as the Go code reads it back (`files(id, name, mimeType)`). -/
structure DriveFile where
  id : String
  name : String
  mimeType : String
deriving DecidableEq

/-- The metadata the Go code puts in a `drive.File` it sends to `Files.Create`. -/
structure FileMeta where
  name : String
  mimeType : String
  parents : List String
deriving DecidableEq

/-- The error taxonomy of the spec; each constructor carries the formatted Go
error message of the branch that produced it. -/
inductive DriveErr where
  | comm (msg : String)
  | notFound (msg : String)
  | validation (msg : String)
  | unsupportedType (msg : String)
deriving DecidableEq

def DriveErr.msg : DriveErr → String
  | .comm m => m
  | .notFound m => m
  | .validation m => m
  | .unsupportedType m => m

/-- One remote call, as issued by the Go code. -/
inductive Call where
  | filesList (q : String) (pageToken : String)
  | filesCreate (meta : FileMeta)
  | filesCreateMedia (meta : FileMeta) (content : String)
  | filesExport (fileID : String) (mime : String)
  | filesGetDownload (fileID : String)
deriving DecidableEq

/-- Whether a call mutates remote state (creates something). -/
def Call.isCreate : Call → Bool
  | .filesCreate _ => true
  | .filesCreateMedia _ _ => true
  | _ => false

/-- The remote service, as a deterministic response oracle.  `filesList` takes
the query and the page token (`""` when the Go code sets none) and returns the
files plus the `nextPageToken`; errors are the remote error messages that Go
wraps with `%w`. -/
structure Env where
  filesList : String → String → Except String (List DriveFile × String)
  filesCreate : FileMeta → Except String DriveFile
  filesCreateMedia : FileMeta → String → Except String DriveFile
  filesExport : String → String → Except String String
  filesGetDownload : String → Except String String

/-! ### String helpers mirroring the Go standard library -/

/-- Go `strings.Split(s, "/")` on the character list: every separator splits,
`""` yields `[[]]`. -/
def splitSlashAux : List Char → List (List Char)
  | [] => [[]]
  | c :: rest =>
    match splitSlashAux rest with
    | [] => [[c]]
    | s :: ss => if c = '/' then [] :: s :: ss else (c :: s) :: ss

/-- Go `strings.Split(folderPath, "/")` as used by `getOrCreateFolderPath`. -/
def goSegments (folderPath : String) : List String :=
  (splitSlashAux folderPath.toList).map String.mk

/-- Go `strings.ToLower` restricted to ASCII case mapping.  (Go lowercases the
full Unicode range; the two agree on ASCII, and no character outside ASCII
simple-lowercases to any character of the ASCII suffix ".docx" that the code
tests, so the restriction is observationally equal for those tests.) -/
def goToLowerChar (c : Char) : Char :=
  if 65 ≤ c.toNat ∧ c.toNat ≤ 90 then Char.ofNat (c.toNat + 32) else c

def goToLower (s : String) : String :=
  String.mk (s.toList.map goToLowerChar)

/-- Go `strings.HasSuffix s suffix`. -/
def goHasSuffix (s suffix : String) : Bool :=
  suffix.toList.reverse.isPrefixOf s.toList.reverse

/-- Go `strings.Contains s sub`: some tail of `s` starts with `sub`. -/
def goContains (s sub : String) : Bool :=
  s.toList.tails.any (fun t => sub.toList.isPrefixOf t)

/-! ### Query construction (`folders.go`, `files.go`) -/

/-- The search query built by `FindFolderIDByName`: the caller-supplied name is
substituted verbatim between single quotes (Go `fmt.Sprintf` with `%s`), then
the parent clause is prepended. -/
def folderQuery (folderName parentID : String) : String :=
  let q := "name = '" ++ folderName ++ "' and mimeType = 'application/vnd.google-apps.folder' and trashed = false"
  if parentID ≠ "" then "'" ++ parentID ++ "' in parents and " ++ q
  else "'root' in parents and " ++ q

/-- The search query built by `FindFileIDByName` (verbatim `%s` substitution). -/
def fileQuery (fileName parentID : String) : String :=
  "name = '" ++ fileName ++ "' and '" ++ parentID ++ "' in parents and trashed = false and mimeType != 'application/vnd.google-apps.folder'"

/-! ### folders.go -/

/-- Embedding of `FindFolderIDByName`: one `Files.List` call with the constructed query;
a remote failure is wrapped ("unable to find folder ..."), zero results is
"folder ... not found", otherwise the first result's id is returned. -/
def FindFolderIDByName (env : Env) (folderName parentID : String) :
    Except DriveErr String × List Call :=
  let q := folderQuery folderName parentID
  match env.filesList q "" with
  | .error e =>
      (.error (.comm ("unable to find folder '" ++ folderName ++ "': " ++ e)), [.filesList q ""])
  | .ok (files, _) =>
      match files with
      | [] => (.error (.notFound ("folder '" ++ folderName ++ "' not found")), [.filesList q ""])
      | f :: _ => (.ok f.id, [.filesList q ""])

/-! ### files.go: getOrCreateFolderPath -/

/-- The folder metadata `getOrCreateFolderPath` sends to `Files.Create`. -/
def folderMeta (name parentID : String) : FileMeta :=
  { name := name
    mimeType := "application/vnd.google-apps.folder"
    parents := [parentID] }

/-- The loop body of `getOrCreateFolderPath` over the split segments: empty
segments are skipped; a successful lookup descends into the found id; ANY
lookup error (communication failure included — the Go code checks only
`err != nil`) falls into the creation branch; a failed creation returns the
wrapped error, a successful one descends into the new folder's id. -/
def resolveSegs (env : Env) : List String → String → Except DriveErr String × List Call
  | [], parent => (.ok parent, [])
  | part :: rest, parent =>
    if part = "" then resolveSegs env rest parent
    else
      match FindFolderIDByName env part parent with
      | (.ok folderID, tr) =>
          let r := resolveSegs env rest folderID
          (r.1, tr ++ r.2)
      | (.error _, tr) =>
          match env.filesCreate (folderMeta part parent) with
          | .error e =>
              (.error (.comm ("unable to create folder '" ++ part ++ "': " ++ e)),
               tr ++ [.filesCreate (folderMeta part parent)])
          | .ok folder =>
              let r := resolveSegs env rest folder.id
              (r.1, tr ++ [.filesCreate (folderMeta part parent)] ++ r.2)

/-- Embedding of `getOrCreateFolderPath`: "." and "/" short-circuit to the root id with no
remote call; otherwise the path is split on "/" and walked from "root". -/
def getOrCreateFolderPath (env : Env) (folderPath : String) :
    Except DriveErr String × List Call :=
  if folderPath = "." ∨ folderPath = "/" then (.ok "root", [])
  else resolveSegs env (goSegments folderPath) "root"

/-! ### files.go: SearchDriveItems -/

/-- The pagination loop of `SearchDriveItems`, with explicit fuel standing in
for Go's unbounded `for {}` loop: `none` means the loop did not finish within
`fuel` iterations.  On a page error Go returns `nil, err` (no partial result);
otherwise the page's files are appended and the loop follows `nextPageToken`
until it is empty. -/
def searchLoop (env : Env) (query : String) :
    Nat → String → List DriveFile → Option (Except DriveErr (List DriveFile) × List Call)
  | 0, _, _ => none
  | fuel + 1, pageToken, acc =>
    match env.filesList query pageToken with
    | .error e =>
        some (.error (.comm ("unable to search drive items: " ++ e)), [.filesList query pageToken])
    | .ok (files, next) =>
        if next = "" then some (.ok (acc ++ files), [.filesList query pageToken])
        else
          (searchLoop env query fuel next (acc ++ files)).map
            (fun r => (r.1, .filesList query pageToken :: r.2))

/-- Embedding of `SearchDriveItems`: it starts with an empty page token and an empty
accumulator. -/
def SearchDriveItems (env : Env) (query : String) (fuel : Nat) :
    Option (Except DriveErr (List DriveFile) × List Call) :=
  searchLoop env query fuel "" []

/-! ### files.go: ReadFileContent -/

def googleDocMime : String := "application/vnd.google-apps.document"

def docxMime : String := "application/vnd.openxmlformats-officedocument.wordprocessingml.document"

def pdfMime : String := "application/pdf"

def folderMime : String := "application/vnd.google-apps.folder"

/-- Go `strings.HasPrefix s pre`. -/
def goHasPrefixStr (s pre : String) : Bool :=
  pre.toList.isPrefixOf s.toList

/-- Embedding of `ReadFileContent`: it dispatches on the declared MIME type: the native Google
document type is exported as plain text; the binary docx and pdf types are
downloaded raw; any `text/`-prefixed type is downloaded raw; anything else is
an unsupported-type error with no remote call.  The oracle's export/download
responses stand for the downloaded body after `buf.ReadFrom` (a body-read
failure is folded into the same oracle error). -/
def ReadFileContent (env : Env) (fileID mimeType : String) :
    Except DriveErr String × List Call :=
  if mimeType = googleDocMime then
    match env.filesExport fileID "text/plain" with
    | .error e =>
        (.error (.comm ("unable to export google doc '" ++ fileID ++ "': " ++ e)),
         [.filesExport fileID "text/plain"])
    | .ok body => (.ok body, [.filesExport fileID "text/plain"])
  else if mimeType = docxMime ∨ mimeType = pdfMime then
    match env.filesGetDownload fileID with
    | .error e =>
        (.error (.comm ("unable to download binary file '" ++ fileID ++ "': " ++ e)),
         [.filesGetDownload fileID])
    | .ok body => (.ok body, [.filesGetDownload fileID])
  else if goHasPrefixStr mimeType "text/" then
    match env.filesGetDownload fileID with
    | .error e =>
        (.error (.comm ("unable to download text file '" ++ fileID ++ "': " ++ e)),
         [.filesGetDownload fileID])
    | .ok body => (.ok body, [.filesGetDownload fileID])
  else
    (.error (.unsupportedType ("unsupported mime type for reading: " ++ mimeType)), [])

/-! ### path/filepath: Base, Dir, Clean (Unix rules, no volume names) -/

/-- The segment-stack pass of Go `path/filepath.Clean` ("Lexical File Names"):
empty and "." elements are dropped; ".." pops a non-".." stack top, is dropped
at the root, and is kept otherwise; other elements are pushed. -/
def cleanParts (rooted : Bool) : List String → List String → List String
  | [], acc => acc.reverse
  | p :: rest, acc =>
    if p = "" ∨ p = "." then cleanParts rooted rest acc
    else if p = ".." then
      match acc with
      | top :: acc2 =>
          if top = ".." then cleanParts rooted rest (p :: top :: acc2)
          else cleanParts rooted rest acc2
      | [] => if rooted then cleanParts rooted rest [] else cleanParts rooted rest [p]
    else cleanParts rooted rest (p :: acc)

/-- Go `strings.Join(parts, "/")`. -/
def joinSlash : List String → String
  | [] => ""
  | [s] => s
  | s :: rest => s ++ "/" ++ joinSlash rest

/-- Go `filepath.Clean` on Unix paths. -/
def goClean (path : String) : String :=
  if path = "" then "."
  else
    let rooted := goHasPrefixStr path "/"
    let joined := joinSlash (cleanParts rooted (goSegments path) [])
    if rooted then "/" ++ joined
    else if joined = "" then "." else joined

/-- Go `filepath.Base` on Unix paths: "" is "."; trailing slashes are
stripped; an all-slash path is "/"; otherwise everything after the last
slash. -/
def goBase (path : String) : String :=
  if path = "" then "."
  else
    let stripped := path.toList.reverse.dropWhile (fun c => c = '/')
    if stripped = [] then "/"
    else String.mk ((stripped.takeWhile (fun c => c ≠ '/')).reverse)

/-- Go `filepath.Dir` on Unix paths: the prefix up to and including the last
slash, cleaned; a slash-free path gives ".". -/
def goDir (path : String) : String :=
  goClean (String.mk ((path.toList.reverse.dropWhile (fun c => c ≠ '/')).reverse))

/-! ### files.go: CreateDocxFileInPath -/

/-- Embedding of `CreateDocxFileInPath`: splits the path into base name and directory,
rejects (before any remote call) a base name whose lowercasing does not end in
".docx", resolves/creates the directory, then creates the file with the docx
MIME type and the content as media. -/
def CreateDocxFileInPath (env : Env) (filePath content : String) :
    Except DriveErr DriveFile × List Call :=
  let fileName := goBase filePath
  let folderPath := goDir filePath
  if goHasSuffix (goToLower fileName) ".docx" = false then
    (.error (.validation "file name must have a .docx extension"), [])
  else
    match getOrCreateFolderPath env folderPath with
    | (.error e, tr) =>
        (.error (.comm ("failed to get or create folder path: " ++ e.msg)), tr)
    | (.ok parentID, tr) =>
        let meta : FileMeta := { name := fileName, mimeType := docxMime, parents := [parentID] }
        match env.filesCreateMedia meta content with
        | .error e =>
            (.error (.comm ("unable to create file '" ++ fileName ++ "': " ++ e)),
             tr ++ [.filesCreateMedia meta content])
        | .ok f => (.ok f, tr ++ [.filesCreateMedia meta content])

/-- Embedding of `FindFileIDByName`: one `Files.List` call with the file query; zero
results is a not-found error, otherwise the first result's id. -/
def FindFileIDByName (env : Env) (fileName parentID : String) :
    Except DriveErr String × List Call :=
  let q := fileQuery fileName parentID
  match env.filesList q "" with
  | .error e => (.error (.comm ("unable to retrieve files: " ++ e)), [.filesList q ""])
  | .ok (files, _) =>
      match files with
      | [] =>
          (.error (.notFound ("file '" ++ fileName ++ "' not found in parent '" ++ parentID ++ "'")),
           [.filesList q ""])
      | f :: _ => (.ok f.id, [.filesList q ""])

/-! ### Folder suggestion (spec-modelled) -/

/-- Modelled from the spec: the fixed ordered keyword→folder rule table of
`SuggestFolderForContent`, whose Go source (in `pkg/driveapi`) is not among
the repository files provided; only its caller in `cmd/server/main.go` is.
The spec fixes the matching discipline (lower-case the input, first matching
keyword wins, default "Miscellaneous") and three input/output pairs; the
table below is the minimal one its words determine. -/
def suggestionRules : List (String × String) :=
  [("report", "Reports"), ("photo", "Images"), ("image", "Images")]

/-- Modelled from the spec: first-match scan of the rule table over the
lowered name, falling back to "Miscellaneous". -/
def firstMatch : List (String × String) → String → String
  | [], _ => "Miscellaneous"
  | (kw, target) :: rest, lowered =>
    if goContains lowered kw then target else firstMatch rest lowered

/-- Modelled from the spec: `SuggestFolderForContent` lower-cases the content
name and scans the rule table; the chosen folder NAME is what the keyword
heuristic yields (the Go code then resolves that name to an id via the
find-or-create semantics of section 4.1 of the spec). -/
def SuggestFolderForContent (contentName : String) : String :=
  firstMatch suggestionRules (goToLower contentName)

/-! ### cmd/server/main.go: handler boundary and process fatality -/

/-- What a tool handler hands back to the MCP transport: the
`*mcp.CallToolResult` payload. -/
inductive ToolOutcome where
  | text (payload : String)
  | errorMsg (msg : String)
deriving DecidableEq

/-- A handler's full return value: the result payload and the Go `error`
returned alongside it to the transport layer (`none` = `nil`). -/
abbrev HandlerRet := ToolOutcome × Option String

/-- The `list_root_folders` handler: drive call then marshal, each failure
turned into an error result with a `nil` transport error. -/
def listRootFoldersHandler (folders : Except String (List DriveFile))
    (marshal : List DriveFile → Except String String) : HandlerRet :=
  match folders with
  | .error e => (.errorMsg e, none)
  | .ok fs =>
      match marshal fs with
      | .error e => (.errorMsg e, none)
      | .ok j => (.text j, none)

/-- The `create_file_in_path` and `create_docx_file_in_path` handlers share
this shape: two required string parameters, the drive create call, marshal. -/
def createFileHandler (pathArg contentArg : Except String String)
    (create : String → String → Except String DriveFile)
    (marshal : DriveFile → Except String String) : HandlerRet :=
  match pathArg with
  | .error e => (.errorMsg e, none)
  | .ok path =>
      match contentArg with
      | .error e => (.errorMsg e, none)
      | .ok content =>
          match create path content with
          | .error e => (.errorMsg e, none)
          | .ok f =>
              match marshal f with
              | .error e => (.errorMsg e, none)
              | .ok j => (.text j, none)

/-- The `suggest_folder_for_content` handler. -/
def suggestFolderHandler (nameArg : Except String String)
    (suggest : String → Except String String)
    (marshal : String → Except String String) : HandlerRet :=
  match nameArg with
  | .error e => (.errorMsg e, none)
  | .ok n =>
      match suggest n with
      | .error e => (.errorMsg e, none)
      | .ok folderID =>
          match marshal folderID with
          | .error e => (.errorMsg e, none)
          | .ok j => (.text j, none)

/-- The `list_files_and_folders` handler: the folder id parameter is optional
(`GetString` with default `""`), so only the drive call and marshal can
fail. -/
def listFilesHandler (folderID : String)
    (listCall : String → Except String (List DriveFile))
    (marshal : List DriveFile → Except String String) : HandlerRet :=
  match listCall folderID with
  | .error e => (.errorMsg e, none)
  | .ok fs =>
      match marshal fs with
      | .error e => (.errorMsg e, none)
      | .ok j => (.text j, none)

/-- The `search_drive_items` handler. -/
def searchHandler (queryArg : Except String String)
    (search : String → Except String (List DriveFile))
    (marshal : List DriveFile → Except String String) : HandlerRet :=
  match queryArg with
  | .error e => (.errorMsg e, none)
  | .ok q =>
      match search q with
      | .error e => (.errorMsg e, none)
      | .ok fs =>
          match marshal fs with
          | .error e => (.errorMsg e, none)
          | .ok j => (.text j, none)

/-- The `read_file_content` handler: two required string parameters, the read
call, marshal. -/
def readFileHandler (fileIDArg mimeTypeArg : Except String String)
    (readCall : String → String → Except String String)
    (marshal : String → Except String String) : HandlerRet :=
  match fileIDArg with
  | .error e => (.errorMsg e, none)
  | .ok fid =>
      match mimeTypeArg with
      | .error e => (.errorMsg e, none)
      | .ok mt =>
          match readCall fid mt with
          | .error e => (.errorMsg e, none)
          | .ok content =>
              match marshal content with
              | .error e => (.errorMsg e, none)
              | .ok j => (.text j, none)

/-- The `mcp/list_tools` handler: only the marshal step can fail. -/
def listToolsHandler (marshalled : Except String String) : HandlerRet :=
  match marshalled with
  | .error e => (.errorMsg e, none)
  | .ok j => (.text j, none)

/-- The `summarize_content` handler: no drive call; only the parameter
extraction and the marshal step can fail. -/
def summarizeHandler (contentArg : Except String String)
    (marshal : String → Except String String) : HandlerRet :=
  match contentArg with
  | .error e => (.errorMsg e, none)
  | .ok content =>
      match marshal content with
      | .error e => (.errorMsg e, none)
      | .ok j => (.text j, none)

/-- The fatal exit points of `main`: `log.Fatalf` fires when
`GetDriveService` fails at startup, and when `sseServer.Start` returns an
error; the `About.Get` probe is only logged, never fatal. -/
def mainIsFatal (driveInit : Except String Unit) (about : Except String String)
    (serverStart : Except String Unit) : Bool :=
  match driveInit with
  | .error _ => true
  | .ok _ =>
      match about, serverStart with
      | _, .error _ => true
      | _, .ok _ => false

/-! ### Spec-side characterizations used to state the claims -/

/-- Pure descent through EXISTING folders: skip empty segments, follow each
successful lookup; `none` as soon as a lookup does not succeed.  `some leaf`
says every segment of the path already exists under its parent and the
descent ends at `leaf`. -/
def lookupChain (env : Env) : List String → String → Option String
  | [], parent => some parent
  | part :: rest, parent =>
    if part = "" then lookupChain env rest parent
    else
      match (FindFolderIDByName env part parent).1 with
      | .ok folderID => lookupChain env rest folderID
      | .error _ => none

/-- Pure descent through MISSING folders: each segment's lookup must come back
not-found (a listing that succeeded with zero results) and its creation must
succeed; the result is the final id together with the metadata of the created
folders in order. -/
def createDescent (env : Env) : List String → String → Option (String × List FileMeta)
  | [], parent => some (parent, [])
  | part :: rest, parent =>
    match (FindFolderIDByName env part parent).1 with
    | .ok _ => none
    | .error (.notFound _) =>
        match env.filesCreate (folderMeta part parent) with
        | .error _ => none
        | .ok f =>
            match createDescent env rest f.id with
            | none => none
            | some (leaf, ms) => some (leaf, folderMeta part parent :: ms)
    | .error _ => none

/-- The claim's "each parented to the previous" chain: starting at `p`, each
created metadata names `p` as its single parent, and the id the oracle returns
for it is the parent of the next one; `leaf` is the last created id (or `p`
when nothing is created). -/
inductive ParentedCreates (env : Env) : String → List FileMeta → String → Prop
  | nil (p : String) : ParentedCreates env p [] p
  | cons (p : String) (m : FileMeta) (f : DriveFile) (ms : List FileMeta) (leaf : String) :
      m.parents = [p] → env.filesCreate m = .ok f →
      ParentedCreates env f.id ms leaf → ParentedCreates env p (m :: ms) leaf

/-- The page chain of a search: from a page token, the successive `Files.List`
responses succeed, each non-final page's `nextPageToken` is non-empty and
leads to the next page, and the last page's token is empty.  The second index
collects the pages' file lists in order. -/
inductive PageChain (env : Env) (query : String) : String → List (List DriveFile) → Prop
  | last (t : String) (files : List DriveFile) :
      env.filesList query t = .ok (files, "") → PageChain env query t [files]
  | step (t : String) (files : List DriveFile) (next : String) (rest : List (List DriveFile)) :
      env.filesList query t = .ok (files, next) → next ≠ "" →
      PageChain env query next rest → PageChain env query t (files :: rest)

/-- A failing page request `k` ok pages away from the given token: following
`k` successful pages (each with a non-empty continuation token) leads to a
token whose page request fails with message `e`. -/
inductive FailsFrom (env : Env) (query : String) : String → Nat → String → Prop
  | here (t : String) (e : String) :
      env.filesList query t = .error e → FailsFrom env query t 0 e
  | step (t : String) (files : List DriveFile) (next : String) (k : Nat) (e : String) :
      env.filesList query t = .ok (files, next) → next ≠ "" →
      FailsFrom env query next k e → FailsFrom env query t (k + 1) e

/-- The single-quote character, named for the query-injection claim. -/
def quoteChar : Char := Char.ofNat 39

/-- What a reader of the query language extracts as the first single-quoted
literal of a query string: the characters after the first quote up to the
next quote. -/
def scanLiteral (s : String) : String :=
  String.mk (((s.toList.dropWhile (fun c => c ≠ quoteChar)).drop 1).takeWhile
    (fun c => c ≠ quoteChar))

/-! ### Concrete oracles for the witnesses and counterexamples -/

/-- An oracle with an existing hierarchy root → "docs" (id1) → "sub" (id2);
every other lookup succeeds with zero results; creations succeed with the id
"new-" prefixed to the name. -/
def envA : Env :=
  { filesList := fun q _ =>
      if q = folderQuery "docs" "root" then .ok ([⟨"id1", "docs", folderMime⟩], "")
      else if q = folderQuery "sub" "id1" then .ok ([⟨"id2", "sub", folderMime⟩], "")
      else .ok ([], "")
    filesCreate := fun m => .ok ⟨"new-" ++ m.name, m.name, m.mimeType⟩
    filesCreateMedia := fun m _ => .ok ⟨"file-" ++ m.name, m.name, m.mimeType⟩
    filesExport := fun _ _ => .ok "exported"
    filesGetDownload := fun _ => .ok "bytes" }

/-- An oracle whose listing calls all fail while creations succeed. -/
def envListFail : Env :=
  { filesList := fun _ _ => .error "network down"
    filesCreate := fun m => .ok ⟨"created-" ++ m.name, m.name, m.mimeType⟩
    filesCreateMedia := fun m _ => .ok ⟨"file-" ++ m.name, m.name, m.mimeType⟩
    filesExport := fun _ _ => .ok "exported"
    filesGetDownload := fun _ => .ok "bytes" }

/-- An oracle whose listings find nothing and whose creations fail. -/
def envCreateFail : Env :=
  { filesList := fun _ _ => .ok ([], "")
    filesCreate := fun _ => .error "quota exceeded"
    filesCreateMedia := fun _ _ => .error "quota exceeded"
    filesExport := fun _ _ => .ok "exported"
    filesGetDownload := fun _ => .ok "bytes" }

/-- An oracle serving two search result pages: the first (empty token) holds
file `a` and continues with token "t1", the second holds file `b` and ends. -/
def envPages : Env :=
  { filesList := fun _ t =>
      if t = "" then .ok ([⟨"a", "a.txt", "text/plain"⟩], "t1")
      else if t = "t1" then .ok ([⟨"b", "b.txt", "text/plain"⟩], "")
      else .error "bad token"
    filesCreate := fun m => .ok ⟨"new-" ++ m.name, m.name, m.mimeType⟩
    filesCreateMedia := fun m _ => .ok ⟨"file-" ++ m.name, m.name, m.mimeType⟩
    filesExport := fun _ _ => .ok "exported"
    filesGetDownload := fun _ => .ok "bytes" }

/-! ### Lemmas about the path resolver -/

/-- Lemma: `FindFolderIDByName` issues exactly one listing call. -/
theorem FindFolderIDByName_trace (env : Env) (n p : String) :
    (FindFolderIDByName env n p).2 = [Call.filesList (folderQuery n p) ""] := by
  unfold FindFolderIDByName
  cases h : env.filesList (folderQuery n p) "" with
  | error e => simp [h]
  | ok pr =>
    obtain ⟨files, next⟩ := pr
    cases files <;> simp [h]

/-- Empty segments do not affect the walk: filtering them out first is the
same computation. -/
theorem resolveSegs_filter (env : Env) :
    ∀ (segs : List String) (p : String),
      resolveSegs env segs p = resolveSegs env (segs.filter (fun s => s ≠ "")) p := by
  intro segs
  induction segs with
  | nil => intro p; simp
  | cons part rest ih =>
    intro p
    by_cases hp : part = ""
    · subst hp
      simpa [resolveSegs] using ih p
    · rw [List.filter_cons_of_pos (by simpa using hp)]
      rcases hF : FindFolderIDByName env part p with ⟨res, tr⟩
      cases res with
      | ok folderID => simp [resolveSegs, hp, hF, ih]
      | error e =>
        cases hC : env.filesCreate (folderMeta part p) with
        | error e2 => simp [resolveSegs, hp, hF, hC]
        | ok folder => simp [resolveSegs, hp, hF, hC, ih]

/-- When every segment already exists (the lookup chain succeeds), the walk
returns the chain's leaf and issues no creation call. -/
theorem resolveSegs_of_lookupChain (env : Env) :
    ∀ (segs : List String) (p leaf : String),
      lookupChain env segs p = some leaf →
      (resolveSegs env segs p).1 = .ok leaf ∧
      ∀ c ∈ (resolveSegs env segs p).2, c.isCreate = false := by
  intro segs
  induction segs with
  | nil =>
    intro p leaf h
    simp [lookupChain] at h
    subst h
    simp [resolveSegs]
  | cons part rest ih =>
    intro p leaf h
    by_cases hp : part = ""
    · subst hp
      simp [lookupChain] at h
      simpa [resolveSegs] using ih p leaf h
    · rcases hF : FindFolderIDByName env part p with ⟨res, tr⟩
      have htr : tr = [Call.filesList (folderQuery part p) ""] := by
        have := FindFolderIDByName_trace env part p
        rw [hF] at this
        exact this
      rw [lookupChain, if_neg hp, hF] at h
      cases res with
      | error e => simp at h
      | ok folderID =>
        simp at h
        obtain ⟨h1, h2⟩ := ih folderID leaf h
        constructor
        · simp [resolveSegs, hp, hF, h1]
        · intro c hc
          simp [resolveSegs, hp, hF, htr] at hc
          rcases hc with hc | hc
          · subst hc; rfl
          · exact h2 c hc

/-- Walking the concatenation of two segment lists is walking the first and,
from the reached folder, walking the second (when the first walk succeeds). -/
theorem resolveSegs_append_ok (env : Env) :
    ∀ (xs ys : List String) (p q : String) (trx : List Call),
      resolveSegs env xs p = (.ok q, trx) →
      resolveSegs env (xs ++ ys) p
        = ((resolveSegs env ys q).1, trx ++ (resolveSegs env ys q).2) := by
  intro xs
  induction xs with
  | nil =>
    intro ys p q trx h
    simp [resolveSegs] at h
    obtain ⟨h1, h2⟩ := h
    subst h1
    subst h2
    simp
  | cons part rest ih =>
    intro ys p q trx h
    by_cases hp : part = ""
    · subst hp
      simp [resolveSegs] at h ⊢
      exact ih ys p q trx h
    · rcases hF : FindFolderIDByName env part p with ⟨res, tr⟩
      cases res with
      | ok folderID =>
        rcases hr : resolveSegs env rest folderID with ⟨r1, r2⟩
        rw [resolveSegs, if_neg hp, hF] at h
        simp [hr] at h
        obtain ⟨h1, h2⟩ := h
        subst h1
        subst h2
        have := ih ys folderID q r2 hr
        rw [List.cons_append, resolveSegs, if_neg hp, hF]
        simp [this]
      | error e =>
        cases hC : env.filesCreate (folderMeta part p) with
        | error e2 =>
          rw [resolveSegs, if_neg hp, hF, hC] at h
          simp at h
        | ok folder =>
          rcases hr : resolveSegs env rest folder.id with ⟨r1, r2⟩
          rw [resolveSegs, if_neg hp, hF, hC] at h
          simp [hr] at h
          obtain ⟨h1, h2⟩ := h
          subst h1
          subst h2
          have := ih ys folder.id q r2 hr
          rw [List.cons_append, resolveSegs, if_neg hp, hF, hC]
          simp [this]

/-- When every segment's lookup comes back not-found and every creation
succeeds (`createDescent`), the walk returns the last created id, its creation
calls are exactly the created metadata in order, those metadata carry the
missing names in path order, and they chain parent-to-child
(`ParentedCreates`). -/
theorem resolveSegs_of_createDescent (env : Env) :
    ∀ (miss : List String) (p leaf : String) (metas : List FileMeta),
      (∀ s ∈ miss, s ≠ "") →
      createDescent env miss p = some (leaf, metas) →
      (resolveSegs env miss p).1 = .ok leaf ∧
      (resolveSegs env miss p).2.filter Call.isCreate = metas.map Call.filesCreate ∧
      metas.map FileMeta.name = miss ∧
      ParentedCreates env p metas leaf := by
  intro miss
  induction miss with
  | nil =>
    intro p leaf metas _ h
    simp [createDescent] at h
    obtain ⟨h1, h2⟩ := h
    subst h1
    subst h2
    exact ⟨rfl, by simp [resolveSegs], rfl, ParentedCreates.nil p⟩
  | cons part rest ih =>
    intro p leaf metas hne h
    have hp : part ≠ "" := hne part (by simp)
    rcases hF : FindFolderIDByName env part p with ⟨res, tr⟩
    have htr : tr = [Call.filesList (folderQuery part p) ""] := by
      have := FindFolderIDByName_trace env part p
      rw [hF] at this
      exact this
    rw [createDescent] at h
    rw [hF] at h
    cases res with
    | ok folderID => simp at h
    | error e =>
      cases e with
      | comm m => simp at h
      | validation m => simp at h
      | unsupportedType m => simp at h
      | notFound m =>
        cases hC : env.filesCreate (folderMeta part p) with
        | error e2 => simp [hC] at h
        | ok folder =>
          rw [hC] at h
          simp only [] at h
          cases hD : createDescent env rest folder.id with
          | none => simp [hD] at h
          | some pr =>
            obtain ⟨leaf2, ms⟩ := pr
            simp only [hD, Option.some.injEq, Prod.mk.injEq] at h
            obtain ⟨h1, h2⟩ := h
            obtain ⟨ih1, ih2, ih3, ih4⟩ :=
              ih folder.id leaf2 ms (fun s hs => hne s (by simp [hs])) hD
            subst h1
            subst h2
            refine ⟨?_, ?_, ?_, ?_⟩
            · simp [resolveSegs, hp, hF, hC, ih1]
            · simp [resolveSegs, hp, hF, hC, htr, List.filter_append, ih2, Call.isCreate]
            · simp [folderMeta, ih3]
            · exact ParentedCreates.cons p (folderMeta part p) folder ms _ rfl hC ih4

/-- C1: a path all of whose segments already exist ("." and "/" are the
root shorthands treated by C7) is resolved by pure descent: the result is the
leaf of the lookup chain, and the trace contains no creation call — existing
folders are left untouched (creation calls are the model's only mutations). -/
theorem C1_existing_path_pure_descent (env : Env) (path leaf : String)
    (hdot : path ≠ ".") (hslash : path ≠ "/")
    (hchain : lookupChain env (goSegments path) "root" = some leaf) :
    (getOrCreateFolderPath env path).1 = .ok leaf ∧
    ∀ c ∈ (getOrCreateFolderPath env path).2, c.isCreate = false := by
  have h := resolveSegs_of_lookupChain env (goSegments path) "root" leaf hchain
  rw [getOrCreateFolderPath, if_neg (by simp [hdot, hslash])]
  exact h

/-- C1 witness: in `envA` the path "docs/sub" descends root → id1 → id2 with
no creation call. -/
theorem C1_witness :
    (getOrCreateFolderPath envA "docs/sub").1 = .ok "id2" ∧
    ∀ c ∈ (getOrCreateFolderPath envA "docs/sub").2, c.isCreate = false :=
  C1_existing_path_pure_descent envA "docs/sub" "id2" (by decide) (by decide) (by decide)

/-- C2: when the path's (nonempty) segments split into a leading run that
exists (lookup chain reaching `pid`) and a trailing run that is missing
(lookups come back not-found, creations succeed), the resolver returns the
last created folder's id, its creation calls are exactly the missing
segments' metadata in path order, and the created folders chain
parent-to-child starting at `pid` (`ParentedCreates`; its last link is the
returned leaf). -/
theorem C2_missing_tail_created (env : Env) (path pid leaf : String)
    (ex miss : List String) (metas : List FileMeta)
    (hdot : path ≠ ".") (hslash : path ≠ "/")
    (hsplit : (goSegments path).filter (fun s => s ≠ "") = ex ++ miss)
    (hex : lookupChain env ex "root" = some pid)
    (hmiss : createDescent env miss pid = some (leaf, metas)) :
    (getOrCreateFolderPath env path).1 = .ok leaf ∧
    (getOrCreateFolderPath env path).2.filter Call.isCreate = metas.map Call.filesCreate ∧
    metas.map FileMeta.name = miss ∧
    ParentedCreates env pid metas leaf := by
  have hne : ∀ s ∈ miss, s ≠ "" := by
    intro s hs
    have : s ∈ (goSegments path).filter (fun t => t ≠ "") := by
      rw [hsplit]; exact List.mem_append_right ex hs
    simpa using (List.mem_filter.mp this).2
  obtain ⟨hex1, hex2⟩ := resolveSegs_of_lookupChain env ex "root" pid hex
  rcases hxE : resolveSegs env ex "root" with ⟨xr, xtr⟩
  rw [hxE] at hex1 hex2
  simp at hex1
  subst hex1
  obtain ⟨m1, m2, m3, m4⟩ := resolveSegs_of_createDescent env miss pid leaf metas hne hmiss
  have happ := resolveSegs_append_ok env ex miss "root" pid xtr hxE
  have hmain : resolveSegs env (goSegments path) "root"
      = ((resolveSegs env miss pid).1, xtr ++ (resolveSegs env miss pid).2) := by
    rw [resolveSegs_filter env (goSegments path) "root", hsplit]
    exact happ
  have hnocreate : xtr.filter Call.isCreate = [] := by
    rw [List.filter_eq_nil_iff]
    intro c hc
    simp [hex2 c hc]
  rw [getOrCreateFolderPath, if_neg (by simp [hdot, hslash]), hmain]
  refine ⟨m1, ?_, m3, m4⟩
  simp [List.filter_append, hnocreate, m2]

/-- C2 witness: in `envA` the path "docs/newA/newB" finds "docs" (id1), then
creates "newA" under id1 and "newB" under the new folder's id, returning the
last created id. -/
theorem C2_witness :
    (getOrCreateFolderPath envA "docs/newA/newB").1 = .ok "new-newB" ∧
    (getOrCreateFolderPath envA "docs/newA/newB").2.filter Call.isCreate
      = [Call.filesCreate (folderMeta "newA" "id1"),
         Call.filesCreate (folderMeta "newB" "new-newA")] ∧
    [folderMeta "newA" "id1", folderMeta "newB" "new-newA"].map FileMeta.name
      = ["newA", "newB"] ∧
    ParentedCreates envA "id1"
      [folderMeta "newA" "id1", folderMeta "newB" "new-newA"] "new-newB" :=
  C2_missing_tail_created envA "docs/newA/newB" "id1" "new-newB"
    ["docs"] ["newA", "newB"]
    [folderMeta "newA" "id1", folderMeta "newB" "new-newA"]
    (by decide) (by decide) (by decide) (by decide) (by decide)

/-- C7: "." and "/" return the root id without any remote call; a path whose
segments are all empty does too; and in general the resolver's walk is the
walk of the path's nonempty segments — empty segments are skipped, never
looked up or created. -/
theorem C7_root_paths_and_empty_segments (env : Env) (path : String) :
    getOrCreateFolderPath env "." = (.ok "root", []) ∧
    getOrCreateFolderPath env "/" = (.ok "root", []) ∧
    ((goSegments path).filter (fun s => s ≠ "") = [] →
      getOrCreateFolderPath env path = (.ok "root", [])) ∧
    (path ≠ "." → path ≠ "/" →
      getOrCreateFolderPath env path
        = resolveSegs env ((goSegments path).filter (fun s => s ≠ "")) "root") := by
  refine ⟨by simp [getOrCreateFolderPath], by simp [getOrCreateFolderPath], ?_, ?_⟩
  · intro hflt
    by_cases hd : path = "." ∨ path = "/"
    · simp [getOrCreateFolderPath, hd]
    · rw [getOrCreateFolderPath, if_neg hd, resolveSegs_filter env (goSegments path) "root",
        hflt]
      simp [resolveSegs]
  · intro hdot hslash
    rw [getOrCreateFolderPath, if_neg (by simp [hdot, hslash])]
    exact resolveSegs_filter env (goSegments path) "root"

/-- C7 witness: the empty path and "a//b" behave as stated in `envA`. -/
theorem C7_witness :
    getOrCreateFolderPath envA "" = (.ok "root", []) ∧
    getOrCreateFolderPath envA "a//b"
      = resolveSegs envA ["a", "b"] "root" :=
  ⟨(C7_root_paths_and_empty_segments envA "").2.2.1 (by decide),
   by
    have := (C7_root_paths_and_empty_segments envA "a//b").2.2.2 (by decide) (by decide)
    simpa using this⟩

/-- C3 counterexample: in `envListFail` every listing call fails, yet
`getOrCreateFolderPath` does not surface a `CommunicationError`: it treats the
failed lookup as not-found, creates a folder in its place, and returns the new
folder's id — exactly the recovery action the claim rules out. -/
theorem C3_counterexample :
    envListFail.filesList (folderQuery "a" "root") "" = .error "network down" ∧
    getOrCreateFolderPath envListFail "a"
      = (.ok "created-a",
         [.filesList (folderQuery "a" "root") "", .filesCreate (folderMeta "a" "root")]) := by
  decide

/-- C3 amended: only a failed folder-CREATION call surfaces an error (the
wrapped creation failure, with no retry); a failed LISTING call is not
surfaced — the resolver falls into the creation branch and, when that creation
succeeds, descends into the newly created folder. -/
theorem C3_amended_failure_handling (env : Env) (part : String) (rest : List String)
    (parent : String) (er : DriveErr) (hp : part ≠ "")
    (hLook : (FindFolderIDByName env part parent).1 = .error er) :
    (∀ e, env.filesCreate (folderMeta part parent) = .error e →
      resolveSegs env (part :: rest) parent
        = (.error (.comm ("unable to create folder '" ++ part ++ "': " ++ e)),
           (FindFolderIDByName env part parent).2 ++ [.filesCreate (folderMeta part parent)])) ∧
    (∀ f, env.filesCreate (folderMeta part parent) = .ok f →
      resolveSegs env (part :: rest) parent
        = ((resolveSegs env rest f.id).1,
           (FindFolderIDByName env part parent).2
             ++ [.filesCreate (folderMeta part parent)] ++ (resolveSegs env rest f.id).2)) := by
  rcases hF : FindFolderIDByName env part parent with ⟨res, tr⟩
  rw [hF] at hLook
  simp at hLook
  subst hLook
  constructor
  · intro e hC
    simp [resolveSegs, hp, hF, hC]
  · intro f hC
    simp [resolveSegs, hp, hF, hC]

/-- C3 witness: in `envCreateFail` the lookup of "a" is an error
(not-found), the creation of "a" fails, and the resolver surfaces the wrapped
creation error. -/
theorem C3_witness :
    resolveSegs envCreateFail ["a"] "root"
      = (.error (.comm ("unable to create folder '" ++ "a" ++ "': " ++ "quota exceeded")),
         (FindFolderIDByName envCreateFail "a" "root").2
           ++ [.filesCreate (folderMeta "a" "root")]) :=
  (C3_amended_failure_handling envCreateFail "a" [] "root"
      (.notFound "folder 'a' not found") (by decide) (by decide)).1
    "quota exceeded" (by decide)

/-- C4: when the path's base name, lowercased, does not end in ".docx",
`CreateDocxFileInPath` returns the validation error and its trace is empty —
no folder lookup, no folder creation, no file creation. -/
theorem C4_docx_extension_validation (env : Env) (filePath content : String)
    (hext : goHasSuffix (goToLower (goBase filePath)) ".docx" = false) :
    CreateDocxFileInPath env filePath content
      = (.error (.validation "file name must have a .docx extension"), []) := by
  simp [CreateDocxFileInPath, hext]

/-- C4 witness: a ".txt" path is rejected with no remote call, even against
an oracle that would answer every call. -/
theorem C4_witness :
    CreateDocxFileInPath envA "MyFolder/file.txt" "hello"
      = (.error (.validation "file name must have a .docx extension"), []) :=
  C4_docx_extension_validation envA "MyFolder/file.txt" "hello" (by decide)

/-! ### Lemmas about the search loop -/

/-- Draining a page chain: with enough fuel, the loop returns the
accumulator followed by the chain's pages, concatenated in order. -/
theorem searchLoop_pageChain (env : Env) (query : String) :
    ∀ (t : String) (pages : List (List DriveFile)),
      PageChain env query t pages →
      ∀ (fuel : Nat) (acc : List DriveFile), pages.length ≤ fuel →
        ∃ tr, searchLoop env query fuel t acc = some (.ok (acc ++ pages.flatten), tr) := by
  intro t pages h
  induction h with
  | last t files hok =>
    intro fuel acc hlen
    match fuel with
    | f + 1 =>
      refine ⟨[.filesList query t], ?_⟩
      simp [searchLoop, hok]
  | step t files next rest hok hne _ ih =>
    intro fuel acc hlen
    match fuel with
    | f + 1 =>
      have hlen2 : rest.length ≤ f := by
        simpa using Nat.lt_succ_iff.mp (Nat.lt_of_lt_of_le (by simp) hlen)
      obtain ⟨tr, htr⟩ := ih f (acc ++ files) hlen2
      refine ⟨.filesList query t :: tr, ?_⟩
      simp [searchLoop, hok, hne, htr, List.append_assoc]

/-- A failing page request within the fuel bound makes the loop return the
wrapped error (and no partial result). -/
theorem searchLoop_failsFrom (env : Env) (query : String) :
    ∀ (t : String) (k : Nat) (e : String),
      FailsFrom env query t k e →
      ∀ (fuel : Nat) (acc : List DriveFile), k < fuel →
        ∃ tr, searchLoop env query fuel t acc
          = some (.error (.comm ("unable to search drive items: " ++ e)), tr) := by
  intro t k e h
  induction h with
  | here t e herr =>
    intro fuel acc hlt
    match fuel with
    | f + 1 =>
      refine ⟨[.filesList query t], ?_⟩
      simp [searchLoop, herr]
  | step t files next k e hok hne _ ih =>
    intro fuel acc hlt
    match fuel with
    | f + 1 =>
      obtain ⟨tr, htr⟩ := ih f (acc ++ files) (Nat.lt_of_succ_lt_succ hlt)
      refine ⟨.filesList query t :: tr, ?_⟩
      simp [searchLoop, hok, hne, htr]

/-- C5: `SearchDriveItems` follows the continuation tokens from the empty
token and returns the concatenation of the successive pages in order; when a
page request along the chain fails, it returns the wrapped error and no
partial result. -/
theorem C5_search_drains_pages (env : Env) (query : String) :
    (∀ pages fuel, PageChain env query "" pages → pages.length ≤ fuel →
      ∃ tr, SearchDriveItems env query fuel = some (.ok pages.flatten, tr)) ∧
    (∀ k e fuel, FailsFrom env query "" k e → k < fuel →
      ∃ tr, SearchDriveItems env query fuel
        = some (.error (.comm ("unable to search drive items: " ++ e)), tr)) := by
  constructor
  · intro pages fuel hch hlen
    simpa [SearchDriveItems] using searchLoop_pageChain env query "" pages hch fuel [] hlen
  · intro k e fuel hf hlt
    simpa [SearchDriveItems] using searchLoop_failsFrom env query "" k e hf fuel [] hlt

/-- C5 witness: `envPages` serves two pages (file `a` then file `b`); with
fuel 2 the search returns both files in page order. -/
theorem C5_witness :
    ∃ tr, SearchDriveItems envPages "q" 2
      = some (.ok ([[⟨"a", "a.txt", "text/plain"⟩], [⟨"b", "b.txt", "text/plain"⟩]]
          : List (List DriveFile)).flatten, tr) :=
  (C5_search_drains_pages envPages "q").1
    [[⟨"a", "a.txt", "text/plain"⟩], [⟨"b", "b.txt", "text/plain"⟩]] 2
    (PageChain.step "" [⟨"a", "a.txt", "text/plain"⟩] "t1" [[⟨"b", "b.txt", "text/plain"⟩]]
      (by decide) (by decide)
      (PageChain.last "t1" [⟨"b", "b.txt", "text/plain"⟩] (by decide)))
    (by decide)

/-- C6: `ReadFileContent` dispatches on the MIME type exactly as claimed: the
native Google document type is exported as plain text; the docx and pdf types
are downloaded raw; every `text/`-prefixed type is downloaded raw; every other
type yields the `UnsupportedType` failure with an empty trace (no remote
contact). -/
theorem C6_read_dispatch (env : Env) (fileID mimeType : String) :
    (mimeType = googleDocMime →
      (ReadFileContent env fileID mimeType).2 = [.filesExport fileID "text/plain"]) ∧
    (mimeType = docxMime ∨ mimeType = pdfMime →
      (ReadFileContent env fileID mimeType).2 = [.filesGetDownload fileID]) ∧
    (goHasPrefixStr mimeType "text/" = true →
      (ReadFileContent env fileID mimeType).2 = [.filesGetDownload fileID]) ∧
    (mimeType ≠ googleDocMime → ¬(mimeType = docxMime ∨ mimeType = pdfMime) →
      goHasPrefixStr mimeType "text/" = false →
      ReadFileContent env fileID mimeType
        = (.error (.unsupportedType ("unsupported mime type for reading: " ++ mimeType)), [])) := by
  refine ⟨?_, ?_, ?_, ?_⟩
  · intro h
    subst h
    cases hx : env.filesExport fileID "text/plain" <;>
      simp [ReadFileContent, hx]
  · intro h
    have hng : mimeType ≠ googleDocMime := by
      rcases h with h | h <;> subst h <;> decide
    cases hx : env.filesGetDownload fileID <;>
      simp [ReadFileContent, hng, h, hx]
  · intro h
    have hng : mimeType ≠ googleDocMime := by
      intro he
      subst he
      exact absurd h (by decide)
    have hnb : ¬(mimeType = docxMime ∨ mimeType = pdfMime) := by
      rintro (he | he) <;> subst he <;> exact absurd h (by decide)
    cases hx : env.filesGetDownload fileID <;>
      simp [ReadFileContent, hng, hnb, h, hx]
  · intro h1 h2 h3
    simp [ReadFileContent, h1, h2, h3]

/-- C6 witness: the three remote-calling branches and the unsupported branch,
each at a concrete MIME type against `envA`. -/
theorem C6_witness :
    (ReadFileContent envA "f1" googleDocMime).2 = [.filesExport "f1" "text/plain"] ∧
    (ReadFileContent envA "f1" pdfMime).2 = [.filesGetDownload "f1"] ∧
    (ReadFileContent envA "f1" "text/csv").2 = [.filesGetDownload "f1"] ∧
    ReadFileContent envA "f1" "image/png"
      = (.error (.unsupportedType ("unsupported mime type for reading: " ++ "image/png")), []) :=
  ⟨(C6_read_dispatch envA "f1" googleDocMime).1 rfl,
   (C6_read_dispatch envA "f1" pdfMime).2.1 (Or.inr rfl),
   (C6_read_dispatch envA "f1" "text/csv").2.2.1 (by decide),
   (C6_read_dispatch envA "f1" "image/png").2.2.2 (by decide) (by decide) (by decide)⟩

/-! ### Lemmas about the suggestion heuristic -/

/-- When no rule's keyword occurs in the lowered name, the scan falls through
to the default. -/
theorem firstMatch_no_hit :
    ∀ (rules : List (String × String)) (lowered : String),
      (∀ r ∈ rules, goContains lowered r.1 = false) →
      firstMatch rules lowered = "Miscellaneous" := by
  intro rules
  induction rules with
  | nil => intro lowered _; rfl
  | cons r rest ih =>
    intro lowered h
    obtain ⟨kw, target⟩ := r
    have hr : goContains lowered kw = false := h (kw, target) (by simp)
    simp [firstMatch, hr]
    exact ih lowered (fun r2 hr2 => h r2 (by simp [hr2]))

/-- The first rule whose keyword occurs wins, whatever comes after it. -/
theorem firstMatch_first_hit :
    ∀ (pre : List (String × String)) (kw target : String)
      (post : List (String × String)) (lowered : String),
      (∀ r ∈ pre, goContains lowered r.1 = false) →
      goContains lowered kw = true →
      firstMatch (pre ++ (kw, target) :: post) lowered = target := by
  intro pre
  induction pre with
  | nil => intro kw target post lowered _ hkw; simp [firstMatch, hkw]
  | cons r rest ih =>
    intro kw target post lowered h hkw
    obtain ⟨kw2, t2⟩ := r
    have hr : goContains lowered kw2 = false := h (kw2, t2) (by simp)
    simp [firstMatch, hr]
    exact ih kw target post lowered (fun r2 hr2 => h r2 (by simp [hr2])) hkw

/-- C8: the suggestion heuristic lower-cases the name and scans the fixed
ordered rule table: the three spec examples hold, a name matching no keyword
maps to "Miscellaneous", and in general the FIRST matching rule's target is
returned. -/
theorem C8_suggestion_first_match :
    SuggestFolderForContent "Quarterly Report.pdf" = "Reports" ∧
    SuggestFolderForContent "photo.png" = "Images" ∧
    SuggestFolderForContent "randomfile.xyz" = "Miscellaneous" ∧
    (∀ name, (∀ r ∈ suggestionRules, goContains (goToLower name) r.1 = false) →
      SuggestFolderForContent name = "Miscellaneous") ∧
    (∀ name pre kw target post,
      suggestionRules = pre ++ (kw, target) :: post →
      (∀ r ∈ pre, goContains (goToLower name) r.1 = false) →
      goContains (goToLower name) kw = true →
      SuggestFolderForContent name = target) := by
  refine ⟨by decide, by decide, by decide, ?_, ?_⟩
  · intro name h
    exact firstMatch_no_hit suggestionRules (goToLower name) h
  · intro name pre kw target post hrules hpre hkw
    rw [SuggestFolderForContent, hrules]
    exact firstMatch_first_hit pre kw target post (goToLower name) hpre hkw

/-- C8 witness: "holiday photo.png" misses the "report" rule, hits the
"photo" rule, and maps to "Images" by the first-match law. -/
theorem C8_witness : SuggestFolderForContent "holiday photo.png" = "Images" :=
  C8_suggestion_first_match.2.2.2.2 "holiday photo.png"
    [("report", "Reports")] "photo" "Images" [("image", "Images")]
    rfl (by decide) (by decide)

/-- C9 counterexample: the drive client was obtained (`.ok`), yet the process
still exits fatally — `main` also calls `log.Fatalf` when the SSE server's
`Start` returns an error, so client-initialization failure is NOT the only
fatal failure. -/
theorem C9_counterexample :
    mainIsFatal (.ok ()) (.ok "user@example.com") (.error "listen tcp :8080: bind failed")
      = true := rfl

/-- C9 amended: every registered handler returns a `nil` transport-level error
on every input, and when the underlying operation fails the handler returns
the error-message result; tool-handler failures never terminate the process.
Fatal exits are exactly the startup client-initialization failure AND an error
returned by the SSE server's `Start` (the `About.Get` probe is only logged). -/
theorem C9_amended_handler_boundary :
    (∀ folders marshal, (listRootFoldersHandler folders marshal).2 = none) ∧
    (∀ e marshal, listRootFoldersHandler (.error e) marshal = (.errorMsg e, none)) ∧
    (∀ pa ca create marshal, (createFileHandler pa ca create marshal).2 = none) ∧
    (∀ p c create marshal e, create p c = .error e →
      createFileHandler (.ok p) (.ok c) create marshal = (.errorMsg e, none)) ∧
    (∀ na suggest marshal, (suggestFolderHandler na suggest marshal).2 = none) ∧
    (∀ n suggest marshal e, suggest n = .error e →
      suggestFolderHandler (.ok n) suggest marshal = (.errorMsg e, none)) ∧
    (∀ fid listCall marshal, (listFilesHandler fid listCall marshal).2 = none) ∧
    (∀ fid listCall marshal e, listCall fid = .error e →
      listFilesHandler fid listCall marshal = (.errorMsg e, none)) ∧
    (∀ qa search marshal, (searchHandler qa search marshal).2 = none) ∧
    (∀ q search marshal e, search q = .error e →
      searchHandler (.ok q) search marshal = (.errorMsg e, none)) ∧
    (∀ fa ma readCall marshal, (readFileHandler fa ma readCall marshal).2 = none) ∧
    (∀ fid mt readCall marshal e, readCall fid mt = .error e →
      readFileHandler (.ok fid) (.ok mt) readCall marshal = (.errorMsg e, none)) ∧
    (∀ ca marshal, (summarizeHandler ca marshal).2 = none) ∧
    (∀ m, (listToolsHandler m).2 = none) ∧
    (∀ e about st, mainIsFatal (.error e) about st = true) ∧
    (∀ about, mainIsFatal (.ok ()) about (.ok ()) = false) ∧
    (∀ about e, mainIsFatal (.ok ()) about (.error e) = true) := by
  refine ⟨?_, ?_, ?_, ?_, ?_, ?_, ?_, ?_, ?_, ?_, ?_, ?_, ?_, ?_, ?_, ?_, ?_⟩
  · intro folders marshal
    cases folders with
    | error e => rfl
    | ok fs => cases h : marshal fs <;> simp [listRootFoldersHandler, h]
  · intro e marshal; rfl
  · intro pa ca create marshal
    cases pa with
    | error e => rfl
    | ok p =>
      cases ca with
      | error e => rfl
      | ok c =>
        cases h1 : create p c with
        | error e => simp [createFileHandler, h1]
        | ok f => cases h2 : marshal f <;> simp [createFileHandler, h1, h2]
  · intro p c create marshal e h
    simp [createFileHandler, h]
  · intro na suggest marshal
    cases na with
    | error e => rfl
    | ok n =>
      cases h1 : suggest n with
      | error e => simp [suggestFolderHandler, h1]
      | ok fid => cases h2 : marshal fid <;> simp [suggestFolderHandler, h1, h2]
  · intro n suggest marshal e h
    simp [suggestFolderHandler, h]
  · intro fid listCall marshal
    cases h1 : listCall fid with
    | error e => simp [listFilesHandler, h1]
    | ok fs => cases h2 : marshal fs <;> simp [listFilesHandler, h1, h2]
  · intro fid listCall marshal e h
    simp [listFilesHandler, h]
  · intro qa search marshal
    cases qa with
    | error e => rfl
    | ok q =>
      cases h1 : search q with
      | error e => simp [searchHandler, h1]
      | ok fs => cases h2 : marshal fs <;> simp [searchHandler, h1, h2]
  · intro q search marshal e h
    simp [searchHandler, h]
  · intro fa ma readCall marshal
    cases fa with
    | error e => rfl
    | ok fid =>
      cases ma with
      | error e => rfl
      | ok mt =>
        cases h1 : readCall fid mt with
        | error e => simp [readFileHandler, h1]
        | ok content => cases h2 : marshal content <;> simp [readFileHandler, h1, h2]
  · intro fid mt readCall marshal e h
    simp [readFileHandler, h]
  · intro ca marshal
    cases ca with
    | error e => rfl
    | ok content => cases h2 : marshal content <;> simp [summarizeHandler, h2]
  · intro m
    cases m <;> rfl
  · intro e about st; rfl
  · intro about; rfl
  · intro about e; rfl

/-- C9 witness: a failing remote search turns into an error-message result
with a `nil` transport error. -/
theorem C9_witness :
    searchHandler (.ok "q") (fun _ => .error "remote search failed") (fun _ => .ok "payload")
      = (.errorMsg "remote search failed", none) :=
  C9_amended_handler_boundary.2.2.2.2.2.2.2.2.2.1 "q"
    (fun _ => .error "remote search failed") (fun _ => .ok "payload") "remote search failed" rfl

/-! ### Lemmas about quoted-literal scanning -/

/-- Dropping while a predicate holds everywhere on the first part skips it. -/
theorem dropWhile_append_all (p : Char → Bool) :
    ∀ (l1 l2 : List Char), (∀ c ∈ l1, p c = true) →
      List.dropWhile p (l1 ++ l2) = List.dropWhile p l2 := by
  intro l1
  induction l1 with
  | nil => intro l2 _; rfl
  | cons c cs ih =>
    intro l2 h
    have hc : p c = true := h c (by simp)
    simp only [List.cons_append, List.dropWhile_cons, hc, if_true]
    exact ih l2 (fun d hd => h d (by simp [hd]))

/-- Taking while a predicate holds stops inside the first part when some
character of it fails the predicate. -/
theorem takeWhile_append_stops (p : Char → Bool) :
    ∀ (l1 l2 : List Char), (∃ c ∈ l1, p c = false) →
      List.takeWhile p (l1 ++ l2) = List.takeWhile p l1 := by
  intro l1
  induction l1 with
  | nil => intro l2 h; simp at h
  | cons c cs ih =>
    intro l2 h
    cases hc : p c with
    | false => simp [List.takeWhile_cons, hc]
    | true =>
      simp only [List.cons_append, List.takeWhile_cons, hc]
      have : ∃ d ∈ cs, p d = false := by
        obtain ⟨d, hd, hdf⟩ := h
        rcases List.mem_cons.mp hd with rfl | hin
        · rw [hc] at hdf; cases hdf
        · exact ⟨d, hin, hdf⟩
      rw [ih l2 this]

/-- A list containing `q` is strictly longer than its maximal `q`-free
prefix. -/
theorem takeWhile_ne_self_of_mem (q : Char) :
    ∀ (l : List Char), q ∈ l → List.takeWhile (fun c => c ≠ q) l ≠ l := by
  intro l
  induction l with
  | nil => intro h; simp at h
  | cons c cs ih =>
    intro h
    by_cases hc : c = q
    · subst hc
      simp [List.takeWhile_cons]
    · simp only [List.takeWhile_cons, decide_eq_true_eq, if_pos hc]
      intro heq
      have htail : List.takeWhile (fun d => d ≠ q) cs = cs := by
        simpa using congrArg List.tail heq
      have hin : q ∈ cs := by
        rcases List.mem_cons.mp h with rfl | hin
        · exact absurd rfl hc
        · exact hin
      exact ih hin htail

/-- Scanning the first quoted literal of `name = '<name>...` stops at the
first quote inside `name` when `name` contains one. -/
theorem scan_stops_inside_name (name : String) (tail : List Char)
    (hq : quoteChar ∈ name.toList) :
    ((((("name = '" ++ name).toList ++ tail).dropWhile
        (fun c => c ≠ quoteChar)).drop 1).takeWhile (fun c => c ≠ quoteChar))
      = name.toList.takeWhile (fun c => c ≠ quoteChar) := by
  have hsplit : ("name = '" ++ name).toList
      = "name = ".toList ++ (quoteChar :: name.toList) := by
    have h1 : ("name = '" ++ name).toList = "name = '".toList ++ name.toList := by
      simp [String.toList, String.data_append]
    have h2 : "name = '".toList = "name = ".toList ++ [quoteChar] := by decide
    rw [h1, h2, List.append_assoc, List.singleton_append]
  rw [hsplit, List.append_assoc]
  rw [dropWhile_append_all (fun c => c ≠ quoteChar) ("name = ".toList)
    ((quoteChar :: name.toList) ++ tail) (by decide)]
  simp only [List.cons_append, List.dropWhile_cons, decide_eq_true_eq]
  rw [if_neg (by simp)]
  simp only [List.drop_succ_cons, List.drop_zero]
  exact takeWhile_append_stops (fun c => c ≠ quoteChar) name.toList tail
    ⟨quoteChar, hq, by simp⟩

/-- C10: the two query builders substitute the caller-supplied name verbatim
between single quotes with no escaping (the three equations give the exact
constructed strings), and for a name containing a single quote the quoted
literal a query reader extracts from the name clause is the name's prefix up
to its first quote — not the full name: the quote terminates the literal
early. -/
theorem C10_query_verbatim_injection (name parentID : String) :
    (fileQuery name parentID
      = "name = '" ++ name ++ "' and '" ++ parentID
        ++ "' in parents and trashed = false and mimeType != 'application/vnd.google-apps.folder'") ∧
    (folderQuery name ""
      = "'root' in parents and "
        ++ ("name = '" ++ name ++ "' and mimeType = 'application/vnd.google-apps.folder' and trashed = false")) ∧
    (parentID ≠ "" →
      folderQuery name parentID
        = "'" ++ parentID ++ "' in parents and "
          ++ ("name = '" ++ name ++ "' and mimeType = 'application/vnd.google-apps.folder' and trashed = false")) ∧
    (quoteChar ∈ name.toList →
      scanLiteral (fileQuery name parentID)
        = String.mk (name.toList.takeWhile (fun c => c ≠ quoteChar)) ∧
      scanLiteral (fileQuery name parentID) ≠ name) := by
  refine ⟨rfl, by simp [folderQuery], ?_, ?_⟩
  · intro h
    simp [folderQuery, h]
  · intro hq
    have hlist : (fileQuery name parentID).toList
        = ("name = '" ++ name).toList
          ++ ("' and '" ++ parentID
              ++ "' in parents and trashed = false and mimeType != 'application/vnd.google-apps.folder'").toList := by
      simp [fileQuery, String.toList, String.data_append, List.append_assoc]
    have hscan : scanLiteral (fileQuery name parentID)
        = String.mk (name.toList.takeWhile (fun c => c ≠ quoteChar)) := by
      rw [scanLiteral, hlist]
      exact congrArg String.mk (scan_stops_inside_name name _ hq)
    refine ⟨hscan, ?_⟩
    rw [hscan]
    obtain ⟨data⟩ := name
    intro heq
    have : List.takeWhile (fun c => c ≠ quoteChar) data = data := by
      simpa using congrArg String.data heq
    exact takeWhile_ne_self_of_mem quoteChar data (by simpa using hq) this

/-- C10 witness: for the quote-containing name a'b the builders substitute it
verbatim, and the extracted name literal is "a", not the full name. -/
theorem C10_witness :
    folderQuery "a'b" "p"
      = "'" ++ "p" ++ "' in parents and "
        ++ ("name = '" ++ "a'b" ++ "' and mimeType = 'application/vnd.google-apps.folder' and trashed = false") ∧
    (scanLiteral (fileQuery "a'b" "p")
        = String.mk (("a'b").toList.takeWhile (fun c => c ≠ quoteChar)) ∧
      scanLiteral (fileQuery "a'b" "p") ≠ "a'b") :=
  ⟨(C10_query_verbatim_injection "a'b" "p").2.2.1 (by decide),
   (C10_query_verbatim_injection "a'b" "p").2.2.2 (by decide)⟩

end GDrive
